import Mathlib

/-!
Shallow embedding of `groups/reconcile.go` (the group reconciler of the
k8s.io groups tool): the data model, the merge/validation engine
(`mergeGroups`, `matchesRegexList`), restriction selection
(`GetRestrictionForPath` with a model of the external doublestar glob
matcher), and the per-group reconciliation loop (`reconcileGroups`),
together with theorems settling the specification claims about them.
-/

namespace Reconcile

/-- Modelled from the spec: Go's compiled regular expressions
(`regexp.Regexp`, an external standard-library engine, not part of this
repository) are represented at the interface boundary by their matching
function `MatchString : String → Bool`. -/
def Regexp : Type := String → Bool

/-- `MatchString` of a compiled regexp: apply the matcher. -/
def Regexp.MatchString (re : Regexp) (s : String) : Bool := re s

/-- Modelled from the spec: `regexp.MustCompile("")` — the empty pattern has
an (unanchored) match in every string, so its `MatchString` is constantly
`true` ("default restriction ... matches any identifier"). -/
def emptyRegexp : Regexp := fun _ => true

/-- `GoogleGroup` from `reconcile.go`: identity, display data, free-form
settings, and the three role lists.  Go's `map[string]string` settings are
embedded as an association list. -/
structure GoogleGroup where
  EmailId : String
  Name : String
  Description : String
  Settings : List (String × String)
  Owners : List String
  Managers : List String
  Members : List String
deriving DecidableEq, Repr

/-- Go map indexing `m[k]` on a `map[string]string`: the stored value, or
the zero value `""` when the key is absent. -/
def mapGet (m : List (String × String)) (k : String) : String :=
  (m.lookup k).getD ""

/-- `Restriction` from `reconcile.go`: a path glob and the compiled
allowed-group matchers. -/
structure Restriction where
  Path : String
  AllowedGroups : List String
  AllowedGroupsRe : List Regexp

/-- `RestrictionsConfig` from `reconcile.go`. -/
structure RestrictionsConfig where
  Restrictions : List Restriction

/-- `defaultRestriction` from `reconcile.go`:
`Restriction{Path: "*", AllowedGroupsRe: []*regexp.Regexp{emptyRegexp}}`. -/
def defaultRestriction : Restriction :=
  { Path := "*", AllowedGroups := [], AllowedGroupsRe := [emptyRegexp] }

/-- `matchesRegexList` from `reconcile.go`: true iff some regexp in the list
matches `s`; iterates the list and returns on the first match. -/
def matchesRegexList (s : String) (list : List Regexp) : Bool :=
  match list with
  | [] => false
  | r :: rest => if r.MatchString s then true else matchesRegexList s rest

/-- The validation loop of `mergeGroups` from `reconcile.go`: `emails` is the
set of identities built from the accumulated list `a` (it is never extended
while scanning `b`); the first violated check produces the error.  Returns
`none` when every group of `b` passes. -/
def mergeGroupsCheck (emails : List String) (r : Restriction) :
    List GoogleGroup → Option String
  | [] => none
  | v :: rest =>
    if v.EmailId = "" then
      some "groups must have email-id"
    else if !matchesRegexList v.EmailId r.AllowedGroupsRe then
      some ("cannot define group " ++ v.EmailId ++ " in " ++ r.Path)
    else if emails.contains v.EmailId then
      some ("cannot overwrite group definitions (duplicate group name "
            ++ v.EmailId ++ ")")
    else
      mergeGroupsCheck emails r rest

/-- `mergeGroups` from `reconcile.go`: build the identity set of `a`, check
every group of `b` against it (empty identity, restriction match, duplicate),
and on success return `append(a, b...)`. -/
def mergeGroups (a b : List GoogleGroup) (r : Restriction) :
    Except String (List GoogleGroup) :=
  match mergeGroupsCheck (a.map (·.EmailId)) r b with
  | some e => .error e
  | none => .ok (a ++ b)

/-- The merge loop of `GroupsConfig.Load` from `reconcile.go`: each
discovered fragment (with the restriction chosen for its path) is merged
into the accumulator; on success `gc.Groups` is replaced by the merged
list, on error the walk aborts and the accumulator keeps its last value.
Returns the final accumulator together with the error, if any. -/
def loadFragments (acc : List GoogleGroup) :
    List (List GoogleGroup × Restriction) →
    List GoogleGroup × Option String
  | [] => (acc, none)
  | (b, r) :: rest =>
    match mergeGroups acc b r with
    | .error e => (acc, some e)
    | .ok merged => loadFragments merged rest

/-- A group passes the three per-group checks of `mergeGroups` against an
accumulated identity list `emails` and restriction `r`. -/
def groupOk (emails : List String) (r : Restriction) (v : GoogleGroup) : Prop :=
  v.EmailId ≠ "" ∧ matchesRegexList v.EmailId r.AllowedGroupsRe = true ∧
    v.EmailId ∉ emails

instance (emails : List String) (r : Restriction) (v : GoogleGroup) :
    Decidable (groupOk emails r v) := by
  unfold groupOk; infer_instance

/-- Go `strings.TrimPrefix(s, pre)`: drop `pre` when `s` starts with it,
else return `s` unchanged. -/
def trimPrefixStr (s pre : String) : String :=
  if pre.toList.isPrefixOf s.toList then String.mk (s.toList.drop pre.toList.length)
  else s

/-- Go `strings.Trim(s, string(filepath.Separator))`: remove leading and
trailing path-separator characters (`'/'`). -/
def trimSeparators (s : String) : String :=
  String.mk
    (((s.toList.dropWhile (fun c => c = '/')).reverse.dropWhile
        (fun c => c = '/')).reverse)

/-- `cleanPath` as computed in `GetRestrictionForPath` (and in
`GroupsConfig.Load`): strip the root prefix, then surrounding separators. -/
def cleanPathOf (path rootDir : String) : String :=
  trimSeparators (trimPrefixStr path rootDir)

/-- Split a character list into path segments at `'/'`, like Go
`strings.Split` on `"/"` (the empty string yields one empty segment). -/
def splitSeg : List Char → List (List Char)
  | [] => [[]]
  | '/' :: rest => [] :: splitSeg rest
  | c :: rest =>
    match splitSeg rest with
    | [] => [[c]]
    | s :: ss => (c :: s) :: ss

/-- Modelled from the spec: the character-class parser of the external
doublestar glob library (not part of this repository) — collect the class
characters up to the closing `]`; `none` (bad pattern) when the class is
unterminated. -/
def parseClass : List Char → Option (List Char × List Char)
  | [] => none
  | ']' :: rest => some ([], rest)
  | c :: rest =>
    match parseClass rest with
    | none => none
    | some (cls, r) => some (c :: cls, r)

/-- Modelled from the spec: within-segment matching of the external
doublestar glob library — `*` matches any run of characters, `?` one
character, `[...]` one character of the class, other characters literally;
an unterminated `[` is a bad pattern (`error`).  `fuel` bounds the
recursion: every call shrinks pattern-plus-input, so
`p.length + n.length + 1` steps always suffice. -/
def segMatchF : Nat → List Char → List Char → Except Unit Bool
  | 0, _, _ => .error ()
  | fuel + 1, p, n =>
    match p, n with
    | [], [] => .ok true
    | [], _ :: _ => .ok false
    | '*' :: ps, [] => segMatchF fuel ps []
    | '*' :: ps, c :: ns =>
      match segMatchF fuel ps (c :: ns) with
      | .error e => .error e
      | .ok true => .ok true
      | .ok false => segMatchF fuel ('*' :: ps) ns
    | '?' :: _, [] => .ok false
    | '?' :: ps, _ :: ns => segMatchF fuel ps ns
    | '[' :: ps, ns =>
      match parseClass ps with
      | none => .error ()
      | some (cls, rest) =>
        match ns with
        | [] => .ok false
        | c :: ns' => if cls.contains c then segMatchF fuel rest ns' else .ok false
    | _ :: _, [] => .ok false
    | c :: ps, d :: ns => if c = d then segMatchF fuel ps ns else .ok false

/-- One pattern segment matched against one path segment, with enough fuel. -/
def segMatch (p n : List Char) : Except Unit Bool :=
  segMatchF (p.length + n.length + 1) p n

/-- Modelled from the spec: segment-level matching of the external
doublestar glob library — a bare `**` segment matches any number of path
segments (try zero, then recurse dropping one); any other pattern segment
must match exactly one path segment.  `fuel` bounds the recursion as in
`segMatchF`. -/
def segsMatchF : Nat → List (List Char) → List (List Char) →
    Except Unit Bool
  | 0, _, _ => .error ()
  | fuel + 1, ps, ns =>
    match ps, ns with
    | [], [] => .ok true
    | [], _ :: _ => .ok false
    | p :: pRest, ns =>
      if p = ['*', '*'] then
        match segsMatchF fuel pRest ns with
        | .error e => .error e
        | .ok true => .ok true
        | .ok false =>
          match ns with
          | [] => .ok false
          | _ :: nRest => segsMatchF fuel (p :: pRest) nRest
      else
        match ns with
        | [] => .ok false
        | n :: nRest =>
          match segMatch p n with
          | .error e => .error e
          | .ok true => segsMatchF fuel pRest nRest
          | .ok false => .ok false

/-- Modelled from the spec: `doublestar.Match(pattern, name)` of the
external doublestar library — split both strings on `'/'` and match
segment-wise with `**` support; a malformed pattern yields an error. -/
def doublestarMatch (pattern name : String) : Except Unit Bool :=
  segsMatchF ((splitSeg pattern.toList).length + (splitSeg name.toList).length + 1)
    (splitSeg pattern.toList) (splitSeg name.toList)

/-- The loop of `GetRestrictionForPath` from `reconcile.go`: return the
first restriction whose glob pattern matches with no error
(`err == nil && match`); a match error or a non-match moves on to the next
restriction. -/
def restrictionLoop (cleanPath : String) : List Restriction → Option Restriction
  | [] => none
  | r :: rest =>
    match doublestarMatch r.Path cleanPath with
    | .ok true => some r
    | _ => restrictionLoop cleanPath rest

/-- `GetRestrictionForPath` from `reconcile.go`: compute the root-relative
path, scan the declared restrictions in order, and fall back to
`defaultRestriction` when the loop finds none. -/
def GetRestrictionForPath (rc : RestrictionsConfig) (path rootDir : String) :
    Restriction :=
  (restrictionLoop (cleanPathOf path rootDir) rc.Restrictions).getD
    defaultRestriction

/-- A minimal concrete group used to evaluate the merge on concrete inputs. -/
def mkGroup (email : String) : GoogleGroup :=
  { EmailId := email, Name := "", Description := "", Settings := [],
    Owners := [], Managers := [], Members := [] }

/-- A declared restriction for paths under `team/` (the compiled
allowed-group matchers are irrelevant to restriction selection). -/
def rTeamGlob : Restriction :=
  { Path := "team/**", AllowedGroups := ["^team-.*"],
    AllowedGroupsRe := [emptyRegexp] }

/-- A declared restriction for paths under `ops/`. -/
def rOpsGlob : Restriction :=
  { Path := "ops/**", AllowedGroups := [], AllowedGroupsRe := [emptyRegexp] }

/-- A declared restriction whose glob pattern is malformed (unterminated
character class). -/
def rBadGlob : Restriction :=
  { Path := "[", AllowedGroups := [], AllowedGroupsRe := [] }

/-- Role constants from `reconcile.go`. -/
def ownerRole : String := "OWNER"

/-- Role constant from `reconcile.go`. -/
def managerRole : String := "MANAGER"

/-- Role constant from `reconcile.go`. -/
def memberRole : String := "MEMBER"

/-- The mockable admin-directory service interface consumed by the
reconciler (`AdminService` in the source): each operation is embedded as a
function from its arguments to its result; `SetGroup` is embedded by
passing the current group to every call. -/
structure AdminService where
  CreateOrUpdateGroupIfNescessary : GoogleGroup → Except String Unit
  AddOrUpdateGroupMembers : GoogleGroup → String → List String → Except String Unit
  RemoveMembersFromGroup : GoogleGroup → List String → Except String Unit
  RemoveOwnerOrManagersFromGroup : GoogleGroup → List String → Except String Unit
  DeleteGroupsIfNecessary : Except String Unit

/-- The mockable group-settings service interface consumed by the
reconciler (`GroupService` in the source). -/
structure GroupService where
  UpdateGroupSettings : GoogleGroup → Except String Unit

/-- Observable remote calls issued by the reconciler, in order: the trace
is the shallow embedding of the loop's side effects. -/
inductive Action where
  | createOrUpdate (g : GoogleGroup)
  | updateSettings (g : GoogleGroup)
  | addMembers (g : GoogleGroup) (role : String) (members : List String)
  | removeMembers (g : GoogleGroup) (members : List String)
  | removeOwnerOrManagers (g : GoogleGroup) (members : List String)
  | deleteGroups
deriving DecidableEq, Repr

/-- Issue one remote call: record it and surface its result. -/
def callA (a : Action) (r : Except String Unit) :
    List Action × Except String Unit :=
  ([a], r)

/-- Issue one remote call whose error, if any, is only logged
(`log.Println(err)` in the source): record the call, drop the result. -/
def callLogged (a : Action) (_r : Except String Unit) :
    List Action × Except String Unit :=
  ([a], .ok ())

/-- Sequencing of the reconciler's straight-line Go code: on error return it
(`return err`), otherwise run the continuation and accumulate the trace. -/
def andThen (x : List Action × Except String Unit)
    (f : Unit → List Action × Except String Unit) :
    List Action × Except String Unit :=
  match x with
  | (tr, .error e) => (tr, .error e)
  | (tr, .ok _) =>
    let y := f ()
    (tr ++ y.1, y.2)

/-- The body of the `reconcileGroups` loop from `reconcile.go` for one
group: empty identity fails up front; create/update, settings, owner adds
and manager adds abort on error; the plain-member add's error is logged and
dropped; then the `ReconcileMembers` setting selects the wide or the narrow
removal call. -/
def reconcileOne (ad : AdminService) (gsv : GroupService) (g : GoogleGroup) :
    List Action × Except String Unit :=
  if g.EmailId = "" then ([], .error "group has no email-id") else
  andThen (callA (.createOrUpdate g) (ad.CreateOrUpdateGroupIfNescessary g)) fun _ =>
  andThen (callA (.updateSettings g) (gsv.UpdateGroupSettings g)) fun _ =>
  andThen (callA (.addMembers g ownerRole g.Owners)
      (ad.AddOrUpdateGroupMembers g ownerRole g.Owners)) fun _ =>
  andThen (callA (.addMembers g managerRole g.Managers)
      (ad.AddOrUpdateGroupMembers g managerRole g.Managers)) fun _ =>
  andThen (callLogged (.addMembers g memberRole g.Members)
      (ad.AddOrUpdateGroupMembers g memberRole g.Members)) fun _ =>
  if mapGet g.Settings "ReconcileMembers" = "true" then
    callA (.removeMembers g (g.Owners ++ g.Managers ++ g.Members))
      (ad.RemoveMembersFromGroup g (g.Owners ++ g.Managers ++ g.Members))
  else
    callA (.removeOwnerOrManagers g (g.Owners ++ g.Managers))
      (ad.RemoveOwnerOrManagersFromGroup g (g.Owners ++ g.Managers))

/-- The `for _, g := range groups` loop of `reconcileGroups`. -/
def reconcileLoop (ad : AdminService) (gsv : GroupService) :
    List GoogleGroup → List Action × Except String Unit
  | [] => ([], .ok ())
  | g :: rest => andThen (reconcileOne ad gsv g) fun _ => reconcileLoop ad gsv rest

/-- `reconcileGroups` from `reconcile.go`: process every group in order,
then one final `DeleteGroupsIfNecessary` pass. -/
def reconcileGroups (ad : AdminService) (gsv : GroupService)
    (groups : List GoogleGroup) : List Action × Except String Unit :=
  andThen (reconcileLoop ad gsv groups) fun _ =>
    callA .deleteGroups ad.DeleteGroupsIfNecessary

/-- A settings service whose update always succeeds. -/
def gsvAllOk : GroupService := ⟨fun _ => .ok ()⟩

/-- A settings service whose update always fails. -/
def gsvFailSettings : GroupService := ⟨fun _ => .error "settings failed"⟩

/-- An admin service where every call succeeds. -/
def adAllOk : AdminService :=
  ⟨fun _ => .ok (), fun _ _ _ => .ok (), fun _ _ => .ok (),
   fun _ _ => .ok (), .ok ()⟩

/-- An admin service where only adding plain members fails. -/
def adMemberAddFails : AdminService :=
  ⟨fun _ => .ok (),
   fun _ role _ => if role = memberRole then .error "member add failed" else .ok (),
   fun _ _ => .ok (), fun _ _ => .ok (), .ok ()⟩

/-- An admin service where creating/updating the group fails. -/
def adCreateFails : AdminService :=
  ⟨fun _ => .error "create failed", fun _ _ _ => .ok (), fun _ _ => .ok (),
   fun _ _ => .ok (), .ok ()⟩

/-- An admin service where adding owners fails. -/
def adOwnerAddFails : AdminService :=
  ⟨fun _ => .ok (),
   fun _ role _ => if role = ownerRole then .error "owner add failed" else .ok (),
   fun _ _ => .ok (), fun _ _ => .ok (), .ok ()⟩

/-- An admin service where adding managers fails. -/
def adManagerAddFails : AdminService :=
  ⟨fun _ => .ok (),
   fun _ role _ => if role = managerRole then .error "manager add failed" else .ok (),
   fun _ _ => .ok (), fun _ _ => .ok (), .ok ()⟩

/-- An admin service where the member-removal calls fail. -/
def adRemoveFails : AdminService :=
  ⟨fun _ => .ok (), fun _ _ _ => .ok (), fun _ _ => .error "remove failed",
   fun _ _ => .error "remove failed", .ok ()⟩

/-- An admin service where the final deletion pass fails. -/
def adDeleteFails : AdminService :=
  ⟨fun _ => .ok (), fun _ _ _ => .ok (), fun _ _ => .ok (),
   fun _ _ => .ok (), .error "delete failed"⟩

/-- A concrete group with `ReconcileMembers: "true"` and one identity per
role. -/
def gRecon : GoogleGroup :=
  { EmailId := "g@x.com", Name := "", Description := "",
    Settings := [("ReconcileMembers", "true")],
    Owners := ["o@x.com"], Managers := ["m@x.com"], Members := ["p@x.com"] }

/-- The same group without the `ReconcileMembers` setting. -/
def gPlainRoles : GoogleGroup := { gRecon with Settings := [] }

lemma mergeGroupsCheck_eq_none_iff (emails : List String) (r : Restriction)
    (b : List GoogleGroup) :
    mergeGroupsCheck emails r b = none ↔ ∀ v ∈ b, groupOk emails r v := by
  induction b with
  | nil => simp [mergeGroupsCheck]
  | cons v rest ih =>
    simp only [mergeGroupsCheck]
    by_cases h1 : v.EmailId = ""
    · simp [h1, groupOk]
    · by_cases h2 : matchesRegexList v.EmailId r.AllowedGroupsRe = true
      · by_cases h3 : emails.contains v.EmailId
        · simp only [h1, h2, h3, if_true, if_false, Bool.not_true,
            Bool.false_eq_true]
          constructor
          · intro h; exact absurd h (by simp)
          · intro h
            rcases h v (List.mem_cons_self v rest) with ⟨_, _, hnot⟩
            exact absurd (by simpa using h3) hnot
        · simp only [h1, h2, h3, if_true, if_false, Bool.not_true,
            Bool.false_eq_true, if_neg]
          rw [ih]
          constructor
          · intro h w hw
            rcases List.mem_cons.mp hw with hw | hw
            · subst hw
              exact ⟨h1, h2, by simpa using h3⟩
            · exact h w hw
          · intro h w hw
            exact h w (List.mem_cons_of_mem v hw)
      · simp only [h1, if_neg h1]
        have h2' : (!matchesRegexList v.EmailId r.AllowedGroupsRe) = true := by
          simp [Bool.not_eq_true'] at h2 ⊢
          exact h2
        rw [if_pos h2']
        constructor
        · intro h; exact absurd h (by simp)
        · intro h
          rcases h v (List.mem_cons_self v rest) with ⟨_, hm, _⟩
          exact absurd hm h2

lemma mergeGroups_ok_iff (a b : List GoogleGroup) (r : Restriction) :
    mergeGroups a b r = .ok (a ++ b) ↔
      ∀ v ∈ b, groupOk (a.map (·.EmailId)) r v := by
  rw [← mergeGroupsCheck_eq_none_iff]
  unfold mergeGroups
  cases h : mergeGroupsCheck (a.map (·.EmailId)) r b <;> simp [h]

lemma mergeGroups_isOk_iff (a b : List GoogleGroup) (r : Restriction) :
    (∃ res, mergeGroups a b r = .ok res) ↔
      ∀ v ∈ b, groupOk (a.map (·.EmailId)) r v := by
  rw [← mergeGroupsCheck_eq_none_iff]
  unfold mergeGroups
  cases h : mergeGroupsCheck (a.map (·.EmailId)) r b <;> simp [h]

lemma mergeGroups_ok_result (a b : List GoogleGroup) (r : Restriction)
    (res : List GoogleGroup) (h : mergeGroups a b r = .ok res) :
    res = a ++ b := by
  unfold mergeGroups at h
  cases hc : mergeGroupsCheck (a.map (·.EmailId)) r b <;> rw [hc] at h
  · simpa using h.symm
  · simp at h

lemma restrictionLoop_eq_none_iff (clean : String) (rs : List Restriction) :
    restrictionLoop clean rs = none ↔
      ∀ r ∈ rs, doublestarMatch r.Path clean ≠ .ok true := by
  induction rs with
  | nil => simp [restrictionLoop]
  | cons r rest ih =>
    simp only [restrictionLoop]
    cases h : doublestarMatch r.Path clean with
    | error e =>
      simp only [List.forall_mem_cons, h]
      constructor
      · intro hl
        exact ⟨by simp, ih.mp hl⟩
      · intro ⟨_, hl⟩; exact ih.mpr hl
    | ok b =>
      cases b with
      | true =>
        simp only [List.forall_mem_cons, h]
        constructor
        · intro hl; exact absurd hl (by simp)
        · intro ⟨hr, _⟩; exact absurd rfl hr
      | false =>
        simp only [List.forall_mem_cons, h]
        constructor
        · intro hl
          exact ⟨by simp, ih.mp hl⟩
        · intro ⟨_, hl⟩; exact ih.mpr hl

lemma restrictionLoop_eq_some (clean : String) (rs : List Restriction)
    (r : Restriction) (h : restrictionLoop clean rs = some r) :
    r ∈ rs ∧ doublestarMatch r.Path clean = .ok true := by
  induction rs with
  | nil => simp [restrictionLoop] at h
  | cons r0 rest ih =>
    simp only [restrictionLoop] at h
    cases h0 : doublestarMatch r0.Path clean with
    | error e =>
      rw [h0] at h
      rcases ih h with ⟨hm, hok⟩
      exact ⟨List.mem_cons_of_mem r0 hm, hok⟩
    | ok b =>
      cases b with
      | true =>
        rw [h0] at h
        have : r0 = r := by simpa using h
        subst this
        exact ⟨List.mem_cons_self r0 rest, h0⟩
      | false =>
        rw [h0] at h
        rcases ih h with ⟨hm, hok⟩
        exact ⟨List.mem_cons_of_mem r0 hm, hok⟩

lemma restrictionLoop_first (clean : String) (pre : List Restriction)
    (r : Restriction) (post : List Restriction)
    (hr : doublestarMatch r.Path clean = .ok true)
    (hpre : ∀ r' ∈ pre, doublestarMatch r'.Path clean ≠ .ok true) :
    restrictionLoop clean (pre ++ r :: post) = some r := by
  induction pre with
  | nil =>
    simp only [List.nil_append, restrictionLoop, hr]
  | cons r0 rest ih =>
    have h0 : doublestarMatch r0.Path clean ≠ .ok true :=
      hpre r0 (List.mem_cons_self r0 rest)
    simp only [List.cons_append, restrictionLoop]
    cases hm : doublestarMatch r0.Path clean with
    | error e => exact ih (fun r' hr' => hpre r' (List.mem_cons_of_mem r0 hr'))
    | ok b =>
      cases b with
      | true => exact absurd hm h0
      | false => exact ih (fun r' hr' => hpre r' (List.mem_cons_of_mem r0 hr'))

lemma restrictionLoop_skip_error (clean : String)
    (rs1 rs2 : List Restriction) (r : Restriction)
    (h : doublestarMatch r.Path clean = .error ()) :
    restrictionLoop clean (rs1 ++ r :: rs2) = restrictionLoop clean (rs1 ++ rs2) := by
  induction rs1 with
  | nil => simp [restrictionLoop, h]
  | cons r0 rest ih =>
    simp only [List.cons_append, restrictionLoop]
    cases hm : doublestarMatch r0.Path clean with
    | error e => simpa using ih
    | ok b =>
      cases b with
      | true => rfl
      | false => simpa using ih

/-- C1 counterexample: a fragment containing the same non-empty identity
twice (absent from the accumulated list `[]`) is *not* rejected by
`mergeGroups` — the merge succeeds, so duplicates introduced within the
incoming fragment itself do not produce a duplicate error. -/
theorem C1_counterexample :
    (mkGroup "dup@x.com").EmailId ≠ "" ∧
    mergeGroups [] [mkGroup "dup@x.com", mkGroup "dup@x.com"]
        defaultRestriction
      = .ok [mkGroup "dup@x.com", mkGroup "dup@x.com"] := by
  constructor
  · decide
  · rfl

/-- C1 (amended): `mergeGroups` checks each incoming identity only against
the accumulated list's identity set, which is never extended while scanning
the incoming fragment; hence a fragment repeating a valid identity merges
successfully and the merged result's identities are not globally unique. -/
theorem C1_within_fragment_duplicates_accepted
    (a : List GoogleGroup) (r : Restriction) (g : GoogleGroup)
    (h1 : g.EmailId ≠ "")
    (h2 : matchesRegexList g.EmailId r.AllowedGroupsRe = true)
    (h3 : g.EmailId ∉ a.map (·.EmailId)) :
    mergeGroups a [g, g] r = .ok (a ++ [g, g]) ∧
    ¬ ((a ++ [g, g]).map (·.EmailId)).Nodup := by
  constructor
  · refine (mergeGroups_ok_iff a [g, g] r).mpr ?_
    intro v hv
    rcases List.mem_cons.mp hv with hv | hv
    · subst hv; exact ⟨h1, h2, h3⟩
    · rcases List.mem_cons.mp hv with hv | hv
      · subst hv; exact ⟨h1, h2, h3⟩
      · exact absurd hv (List.not_mem_nil v)
  · intro hnd
    rw [List.map_append] at hnd
    have hright : ([g, g].map (·.EmailId)).Nodup := hnd.of_append_right
    simp [List.map_cons] at hright

/-- C1 witness: the amended statement evaluated at the concrete duplicated
fragment. -/
theorem C1_duplicates_accepted_witness :
    mergeGroups [] [mkGroup "dup@x.com", mkGroup "dup@x.com"]
        defaultRestriction
      = .ok (([] : List GoogleGroup) ++
             [mkGroup "dup@x.com", mkGroup "dup@x.com"]) ∧
    ¬ ((([] : List GoogleGroup) ++
        [mkGroup "dup@x.com", mkGroup "dup@x.com"]).map
        (·.EmailId)).Nodup :=
  C1_within_fragment_duplicates_accepted [] defaultRestriction
    (mkGroup "dup@x.com") (by decide) (by decide) (by simp)

/-- C2: with the accumulated identities unique, `mergeGroups a b r` succeeds
iff every group of `b` has a non-empty identity, matches the restriction,
and is absent from `a`'s identities; and any successful result is exactly
`a ++ b`. -/
theorem C2_mergeGroups_succeeds_iff (a b : List GoogleGroup) (r : Restriction)
    (_hA : (a.map (·.EmailId)).Nodup) :
    ((∃ res, mergeGroups a b r = .ok res) ↔
      ∀ g ∈ b, g.EmailId ≠ "" ∧
        matchesRegexList g.EmailId r.AllowedGroupsRe = true ∧
        g.EmailId ∉ a.map (·.EmailId)) ∧
    (∀ res, mergeGroups a b r = .ok res → res = a ++ b) := by
  constructor
  · simpa [groupOk] using mergeGroups_isOk_iff a b r
  · exact fun res h => mergeGroups_ok_result a b r res h

/-- C2 witness: the iff and the result shape evaluated on a concrete
accumulated list and fragment. -/
theorem C2_mergeGroups_succeeds_iff_witness :
    (∃ res,
      mergeGroups [mkGroup "a@x.com"] [mkGroup "b@x.com"] defaultRestriction
        = .ok res) ∧
    (∀ res,
      mergeGroups [mkGroup "a@x.com"] [mkGroup "b@x.com"] defaultRestriction
        = .ok res → res = [mkGroup "a@x.com"] ++ [mkGroup "b@x.com"]) := by
  have h := C2_mergeGroups_succeeds_iff [mkGroup "a@x.com"] [mkGroup "b@x.com"]
    defaultRestriction (by decide)
  exact ⟨h.1.mpr (by decide), h.2⟩

/-- C3: the merge is atomic on failure — in the `GroupsConfig.Load` loop,
when `mergeGroups` returns an error the walk aborts and the accumulator is
unchanged; in particular, when a second fragment redefines an identity of an
already-merged first fragment, the load stops with the duplicate error and
the accumulator holds exactly the first fragment's merge result. -/
theorem C3_merge_atomic_on_failure :
    (∀ (acc b : List GoogleGroup) (r : Restriction)
       (rest : List (List GoogleGroup × Restriction)) (e : String),
       mergeGroups acc b r = .error e →
       loadFragments acc ((b, r) :: rest) = (acc, some e)) ∧
    (∀ (f1 f2 : List GoogleGroup) (r1 r2 : Restriction)
       (m1 : List GoogleGroup) (e : String),
       mergeGroups [] f1 r1 = .ok m1 →
       mergeGroups m1 f2 r2 = .error e →
       loadFragments [] [(f1, r1), (f2, r2)] = (m1, some e)) := by
  constructor
  · intro acc b r rest e h
    simp [loadFragments, h]
  · intro f1 f2 r1 r2 m1 e h1 h2
    simp [loadFragments, h1, h2]

/-- C3 witness: two fragments both defining `dup@x.com` — the second merge
fails with the duplicate error and the accumulator keeps exactly the first
fragment's groups. -/
theorem C3_merge_atomic_on_failure_witness :
    loadFragments [mkGroup "dup@x.com"]
        [([mkGroup "dup@x.com"], defaultRestriction)]
      = ([mkGroup "dup@x.com"],
         some ("cannot overwrite group definitions (duplicate group name "
               ++ "dup@x.com" ++ ")")) ∧
    loadFragments []
        [([mkGroup "dup@x.com"], defaultRestriction),
         ([mkGroup "dup@x.com"], defaultRestriction)]
      = ([mkGroup "dup@x.com"],
         some ("cannot overwrite group definitions (duplicate group name "
               ++ "dup@x.com" ++ ")")) :=
  ⟨C3_merge_atomic_on_failure.1 [mkGroup "dup@x.com"] [mkGroup "dup@x.com"]
      defaultRestriction [] _ (by rfl),
   C3_merge_atomic_on_failure.2 [mkGroup "dup@x.com"] [mkGroup "dup@x.com"]
      defaultRestriction defaultRestriction [mkGroup "dup@x.com"] _
      (by rfl) (by rfl)⟩

/-- C7: merging an empty fragment is the identity — `mergeGroups a [] r`
succeeds and returns `a` unchanged, for every accumulated list and
restriction. -/
theorem C7_merge_empty_fragment_identity (a : List GoogleGroup)
    (r : Restriction) :
    mergeGroups a [] r = .ok a := by
  simp [mergeGroups, mergeGroupsCheck]

/-- C8: the default restriction's allowed-group matchers accept every
string, so under the default restriction the restriction check of
`mergeGroups` never fails — a fragment whose groups all have non-empty
identities absent from the accumulator always merges. -/
theorem C8_default_restriction_matches_everything :
    (∀ s, matchesRegexList s defaultRestriction.AllowedGroupsRe = true) ∧
    (∀ (a b : List GoogleGroup),
      (∀ g ∈ b, g.EmailId ≠ "" ∧ g.EmailId ∉ a.map (·.EmailId)) →
      mergeGroups a b defaultRestriction = .ok (a ++ b)) := by
  constructor
  · intro s; rfl
  · intro a b h
    refine (mergeGroups_ok_iff a b defaultRestriction).mpr ?_
    intro v hv
    exact ⟨(h v hv).1, rfl, (h v hv).2⟩

/-- C8 witness: the default restriction accepts a concrete identity, and a
concrete unrestricted fragment merges successfully. -/
theorem C8_default_restriction_witness :
    matchesRegexList "anything@x.com" defaultRestriction.AllowedGroupsRe
      = true ∧
    mergeGroups [] [mkGroup "a@x.com"] defaultRestriction
      = .ok (([] : List GoogleGroup) ++ [mkGroup "a@x.com"]) :=
  ⟨C8_default_restriction_matches_everything.1 "anything@x.com",
   C8_default_restriction_matches_everything.2 [] [mkGroup "a@x.com"]
     (by decide)⟩

/-- C9: a restriction whose compiled allowed-group list is empty rejects
every non-empty fragment — `matchesRegexList` against `[]` is `false`, so
`mergeGroups` fails on the first incoming group (with the empty-identity
error if its identity is empty, otherwise with the restriction error). -/
theorem C9_empty_allowed_list_rejects_all (a b : List GoogleGroup)
    (r : Restriction) (hre : r.AllowedGroupsRe = []) (hb : b ≠ []) :
    ∃ e, mergeGroups a b r = .error e := by
  cases b with
  | nil => exact absurd rfl hb
  | cons v rest =>
    by_cases h1 : v.EmailId = ""
    · exact ⟨"groups must have email-id",
        by simp [mergeGroups, mergeGroupsCheck, h1]⟩
    · have hm : matchesRegexList v.EmailId r.AllowedGroupsRe = false := by
        rw [hre]; rfl
      exact ⟨"cannot define group " ++ v.EmailId ++ " in " ++ r.Path,
        by simp [mergeGroups, mergeGroupsCheck, h1, hm]⟩

/-- C9 witness: a concrete restriction with no compiled allowed-group
patterns rejects a concrete one-group fragment. -/
theorem C9_empty_allowed_list_witness :
    ∃ e, mergeGroups [] [mkGroup "a@x.com"]
      { Path := "p", AllowedGroups := [], AllowedGroupsRe := [] }
      = .error e :=
  C9_empty_allowed_list_rejects_all [] [mkGroup "a@x.com"]
    { Path := "p", AllowedGroups := [], AllowedGroupsRe := [] }
    rfl (by simp)

/-- C4: `GetRestrictionForPath` returns the first declared restriction (in
declaration order) whose glob pattern matches the root-relative path; when
no declared pattern matches it returns `defaultRestriction`; and — provided
the default restriction value is not itself among the declared ones — it
returns the default exactly when no declared pattern matches.  The result
is a function of the inputs, hence deterministic. -/
theorem C4_first_declared_match_wins (rc : RestrictionsConfig)
    (path rootDir : String) :
    (∀ pre r post, rc.Restrictions = pre ++ r :: post →
        doublestarMatch r.Path (cleanPathOf path rootDir) = .ok true →
        (∀ r' ∈ pre,
          doublestarMatch r'.Path (cleanPathOf path rootDir) ≠ .ok true) →
        GetRestrictionForPath rc path rootDir = r) ∧
    ((∀ r ∈ rc.Restrictions,
        doublestarMatch r.Path (cleanPathOf path rootDir) ≠ .ok true) →
        GetRestrictionForPath rc path rootDir = defaultRestriction) ∧
    (defaultRestriction ∉ rc.Restrictions →
        (GetRestrictionForPath rc path rootDir = defaultRestriction ↔
          ∀ r ∈ rc.Restrictions,
            doublestarMatch r.Path (cleanPathOf path rootDir) ≠ .ok true)) := by
  refine ⟨?_, ?_, ?_⟩
  · intro pre r post hEq hr hpre
    unfold GetRestrictionForPath
    rw [hEq, restrictionLoop_first _ pre r post hr hpre]
    rfl
  · intro h
    unfold GetRestrictionForPath
    rw [(restrictionLoop_eq_none_iff _ _).mpr h]
    rfl
  · intro hnd
    constructor
    · intro hres r hm hcontra
      cases hl : restrictionLoop (cleanPathOf path rootDir) rc.Restrictions with
      | none =>
        exact ((restrictionLoop_eq_none_iff _ _).mp hl) r hm hcontra
      | some r0 =>
        rcases restrictionLoop_eq_some _ _ _ hl with ⟨hmem, _⟩
        have h0 : r0 = defaultRestriction := by
          have h1 := hres
          unfold GetRestrictionForPath at h1
          rw [hl] at h1
          simpa using h1
        rw [h0] at hmem
        exact absurd hmem hnd
    · intro h
      unfold GetRestrictionForPath
      rw [(restrictionLoop_eq_none_iff _ _).mpr h]
      rfl

/-- C4 witness: with declared restrictions `[ops/**, team/**]`, the path
`root/team/sub/groups.yaml` (root `root`) selects `team/**` — the first
declared match — and `root/docs/groups.yaml`, matched by neither, selects
the default restriction (stated through the iff of the theorem's third
conjunct). -/
theorem C4_first_declared_match_wins_witness :
    GetRestrictionForPath ⟨[rOpsGlob, rTeamGlob]⟩
        "root/team/sub/groups.yaml" "root" = rTeamGlob ∧
    GetRestrictionForPath ⟨[rOpsGlob, rTeamGlob]⟩
        "root/docs/groups.yaml" "root" = defaultRestriction := by
  have h1 := C4_first_declared_match_wins ⟨[rOpsGlob, rTeamGlob]⟩
    "root/team/sub/groups.yaml" "root"
  have h2 := C4_first_declared_match_wins ⟨[rOpsGlob, rTeamGlob]⟩
    "root/docs/groups.yaml" "root"
  constructor
  · refine h1.1 [rOpsGlob] rTeamGlob [] rfl rfl ?_
    intro r' hr' hc
    have he : r' = rOpsGlob := by simpa using hr'
    subst he
    rw [show doublestarMatch rOpsGlob.Path
          (cleanPathOf "root/team/sub/groups.yaml" "root") = .ok false
        from rfl] at hc
    simp at hc
  · refine (h2.2.2 ?_).mpr ?_
    · intro hm
      rcases List.mem_cons.mp hm with h | h
      · exact absurd (congrArg Restriction.Path h) (by decide)
      · rcases List.mem_cons.mp h with h | h
        · exact absurd (congrArg Restriction.Path h) (by decide)
        · exact absurd h (List.not_mem_nil _)
    · intro r hm hc
      rcases List.mem_cons.mp hm with h | h
      · subst h
        rw [show doublestarMatch rOpsGlob.Path
              (cleanPathOf "root/docs/groups.yaml" "root") = .ok false
            from rfl] at hc
        simp at hc
      · rcases List.mem_cons.mp h with h | h
        · subst h
          rw [show doublestarMatch rTeamGlob.Path
                (cleanPathOf "root/docs/groups.yaml" "root") = .ok false
              from rfl] at hc
          simp at hc
        · exact absurd h (List.not_mem_nil _)

/-- C10: a declared restriction whose glob pattern produces a match error is
silently skipped — removing it from the declared list does not change the
result of `GetRestrictionForPath`, so such paths fall through to later
restrictions or to the permit-all default. -/
theorem C10_malformed_pattern_skipped (rs1 rs2 : List Restriction)
    (r : Restriction) (path rootDir : String)
    (h : doublestarMatch r.Path (cleanPathOf path rootDir) = .error ()) :
    GetRestrictionForPath ⟨rs1 ++ r :: rs2⟩ path rootDir
      = GetRestrictionForPath ⟨rs1 ++ rs2⟩ path rootDir := by
  unfold GetRestrictionForPath
  rw [restrictionLoop_skip_error _ rs1 rs2 r h]

/-- C10 witness: a restriction with the malformed pattern `[` is skipped —
the lookup behaves as if it were absent, and the path falls through to the
default restriction. -/
theorem C10_malformed_pattern_skipped_witness :
    GetRestrictionForPath ⟨[rBadGlob]⟩ "root/groups.yaml" "root"
      = GetRestrictionForPath ⟨[]⟩ "root/groups.yaml" "root" ∧
    GetRestrictionForPath ⟨[rBadGlob]⟩ "root/groups.yaml" "root"
      = defaultRestriction :=
  ⟨C10_malformed_pattern_skipped [] [] rBadGlob "root/groups.yaml" "root" rfl,
   rfl⟩

lemma andThen_ok (x : List Action × Except String Unit)
    (f : Unit → List Action × Except String Unit) (h : x.2 = .ok ()) :
    andThen x f = (x.1 ++ (f ()).1, (f ()).2) := by
  rcases x with ⟨tr, r⟩
  cases r with
  | error e => simp at h
  | ok u => rfl

lemma andThen_error (x : List Action × Except String Unit)
    (f : Unit → List Action × Except String Unit) (e : String)
    (h : x.2 = .error e) :
    andThen x f = (x.1, .error e) := by
  rcases x with ⟨tr, r⟩
  cases r with
  | error e' =>
    simp only at h
    rw [h] at *
    rfl
  | ok u => simp at h

/-- C5: during reconciliation, a failure adding plain members is logged and
does not abort — the removal step still runs and a successful body lets the
loop continue with the remaining groups — while a failure at any other step
(create/update, settings, owner adds, manager adds, either removal call, or
the final deletion pass) stops the whole reconciliation at that call. -/
theorem C5_member_add_error_is_nonfatal :
    (∀ (ad : AdminService) (gsv : GroupService) (g : GoogleGroup) (e : String),
      g.EmailId ≠ "" →
      ad.CreateOrUpdateGroupIfNescessary g = .ok () →
      gsv.UpdateGroupSettings g = .ok () →
      ad.AddOrUpdateGroupMembers g ownerRole g.Owners = .ok () →
      ad.AddOrUpdateGroupMembers g managerRole g.Managers = .ok () →
      ad.AddOrUpdateGroupMembers g memberRole g.Members = .error e →
      (mapGet g.Settings "ReconcileMembers" = "true" →
        ad.RemoveMembersFromGroup g (g.Owners ++ g.Managers ++ g.Members) = .ok () →
        (reconcileOne ad gsv g).2 = .ok () ∧
        Action.removeMembers g (g.Owners ++ g.Managers ++ g.Members)
          ∈ (reconcileOne ad gsv g).1) ∧
      (mapGet g.Settings "ReconcileMembers" ≠ "true" →
        ad.RemoveOwnerOrManagersFromGroup g (g.Owners ++ g.Managers) = .ok () →
        (reconcileOne ad gsv g).2 = .ok () ∧
        Action.removeOwnerOrManagers g (g.Owners ++ g.Managers)
          ∈ (reconcileOne ad gsv g).1)) ∧
    (∀ (ad : AdminService) (gsv : GroupService) (g : GoogleGroup)
       (rest : List GoogleGroup),
      (reconcileOne ad gsv g).2 = .ok () →
      reconcileGroups ad gsv (g :: rest)
        = ((reconcileOne ad gsv g).1 ++ (reconcileGroups ad gsv rest).1,
           (reconcileGroups ad gsv rest).2)) ∧
    (∀ (ad : AdminService) (gsv : GroupService) (g : GoogleGroup)
       (rest : List GoogleGroup) (e : String),
      (reconcileOne ad gsv g).2 = .error e →
      reconcileGroups ad gsv (g :: rest) = ((reconcileOne ad gsv g).1, .error e)) ∧
    (∀ (ad : AdminService) (gsv : GroupService) (g : GoogleGroup) (e : String),
      g.EmailId ≠ "" →
      ad.CreateOrUpdateGroupIfNescessary g = .error e →
      reconcileOne ad gsv g = ([.createOrUpdate g], .error e)) ∧
    (∀ (ad : AdminService) (gsv : GroupService) (g : GoogleGroup) (e : String),
      g.EmailId ≠ "" →
      ad.CreateOrUpdateGroupIfNescessary g = .ok () →
      gsv.UpdateGroupSettings g = .error e →
      reconcileOne ad gsv g
        = ([.createOrUpdate g, .updateSettings g], .error e)) ∧
    (∀ (ad : AdminService) (gsv : GroupService) (g : GoogleGroup) (e : String),
      g.EmailId ≠ "" →
      ad.CreateOrUpdateGroupIfNescessary g = .ok () →
      gsv.UpdateGroupSettings g = .ok () →
      ad.AddOrUpdateGroupMembers g ownerRole g.Owners = .error e →
      reconcileOne ad gsv g
        = ([.createOrUpdate g, .updateSettings g,
            .addMembers g ownerRole g.Owners], .error e)) ∧
    (∀ (ad : AdminService) (gsv : GroupService) (g : GoogleGroup) (e : String),
      g.EmailId ≠ "" →
      ad.CreateOrUpdateGroupIfNescessary g = .ok () →
      gsv.UpdateGroupSettings g = .ok () →
      ad.AddOrUpdateGroupMembers g ownerRole g.Owners = .ok () →
      ad.AddOrUpdateGroupMembers g managerRole g.Managers = .error e →
      reconcileOne ad gsv g
        = ([.createOrUpdate g, .updateSettings g,
            .addMembers g ownerRole g.Owners,
            .addMembers g managerRole g.Managers], .error e)) ∧
    (∀ (ad : AdminService) (gsv : GroupService) (g : GoogleGroup) (e : String),
      g.EmailId ≠ "" →
      ad.CreateOrUpdateGroupIfNescessary g = .ok () →
      gsv.UpdateGroupSettings g = .ok () →
      ad.AddOrUpdateGroupMembers g ownerRole g.Owners = .ok () →
      ad.AddOrUpdateGroupMembers g managerRole g.Managers = .ok () →
      mapGet g.Settings "ReconcileMembers" = "true" →
      ad.RemoveMembersFromGroup g (g.Owners ++ g.Managers ++ g.Members) = .error e →
      reconcileOne ad gsv g
        = ([.createOrUpdate g, .updateSettings g,
            .addMembers g ownerRole g.Owners,
            .addMembers g managerRole g.Managers,
            .addMembers g memberRole g.Members,
            .removeMembers g (g.Owners ++ g.Managers ++ g.Members)],
           .error e)) ∧
    (∀ (ad : AdminService) (gsv : GroupService) (g : GoogleGroup) (e : String),
      g.EmailId ≠ "" →
      ad.CreateOrUpdateGroupIfNescessary g = .ok () →
      gsv.UpdateGroupSettings g = .ok () →
      ad.AddOrUpdateGroupMembers g ownerRole g.Owners = .ok () →
      ad.AddOrUpdateGroupMembers g managerRole g.Managers = .ok () →
      mapGet g.Settings "ReconcileMembers" ≠ "true" →
      ad.RemoveOwnerOrManagersFromGroup g (g.Owners ++ g.Managers) = .error e →
      reconcileOne ad gsv g
        = ([.createOrUpdate g, .updateSettings g,
            .addMembers g ownerRole g.Owners,
            .addMembers g managerRole g.Managers,
            .addMembers g memberRole g.Members,
            .removeOwnerOrManagers g (g.Owners ++ g.Managers)],
           .error e)) ∧
    (∀ (ad : AdminService) (gsv : GroupService) (e : String),
      ad.DeleteGroupsIfNecessary = .error e →
      reconcileGroups ad gsv [] = ([.deleteGroups], .error e)) := by
  refine ⟨?_, ?_, ?_, ?_, ?_, ?_, ?_, ?_, ?_, ?_⟩
  · intro ad gsv g e h0 h1 h2 h3 h4 h5
    constructor
    · intro hs hrm
      have hrm2 : ad.RemoveMembersFromGroup g
          (g.Owners ++ (g.Managers ++ g.Members)) = .ok () := by
        simpa using hrm
      simp [reconcileOne, andThen, callA, callLogged, h0, h1, h2, h3, h4, hs, hrm2]
    · intro hs hrm
      simp [reconcileOne, andThen, callA, callLogged, h0, h1, h2, h3, h4, hs, hrm]
  · intro ad gsv g rest h
    unfold reconcileGroups
    have hl : reconcileLoop ad gsv (g :: rest)
        = andThen (reconcileOne ad gsv g) fun _ => reconcileLoop ad gsv rest := rfl
    rw [hl, andThen_ok _ _ h]
    cases hr : (reconcileLoop ad gsv rest).2 with
    | ok u =>
      cases u
      rw [andThen_ok _ _ (by simpa using hr), andThen_ok _ _ hr]
      simp
    | error e =>
      rw [andThen_error _ _ e (by simpa using hr), andThen_error _ _ e hr]
  · intro ad gsv g rest e h
    unfold reconcileGroups
    have hl : reconcileLoop ad gsv (g :: rest)
        = andThen (reconcileOne ad gsv g) fun _ => reconcileLoop ad gsv rest := rfl
    rw [hl, andThen_error _ _ e h, andThen_error _ _ e rfl]
  · intro ad gsv g e h0 h1
    simp [reconcileOne, andThen, callA, h0, h1]
  · intro ad gsv g e h0 h1 h2
    simp [reconcileOne, andThen, callA, h0, h1, h2]
  · intro ad gsv g e h0 h1 h2 h3
    simp [reconcileOne, andThen, callA, h0, h1, h2, h3]
  · intro ad gsv g e h0 h1 h2 h3 h4
    simp [reconcileOne, andThen, callA, h0, h1, h2, h3, h4]
  · intro ad gsv g e h0 h1 h2 h3 h4 hs hrm
    have hrm2 : ad.RemoveMembersFromGroup g
        (g.Owners ++ (g.Managers ++ g.Members)) = .error e := by
      simpa using hrm
    simp [reconcileOne, andThen, callA, callLogged, h0, h1, h2, h3, h4, hs, hrm2]
  · intro ad gsv g e h0 h1 h2 h3 h4 hs hrm
    simp [reconcileOne, andThen, callA, callLogged, h0, h1, h2, h3, h4, hs, hrm]
  · intro ad gsv e h
    simp [reconcileGroups, reconcileLoop, andThen, callA, h]

/-- C5 witness: each part of the theorem evaluated on concrete services —
a failing plain-member add leaves the body successful and the loop running,
while concrete failures at every other step abort with exactly the calls
made so far. -/
theorem C5_member_add_error_is_nonfatal_witness :
    ((reconcileOne adMemberAddFails gsvAllOk gPlainRoles).2 = .ok () ∧
     Action.removeOwnerOrManagers gPlainRoles
        (gPlainRoles.Owners ++ gPlainRoles.Managers)
       ∈ (reconcileOne adMemberAddFails gsvAllOk gPlainRoles).1) ∧
    (reconcileGroups adMemberAddFails gsvAllOk [gPlainRoles, gRecon]
      = ((reconcileOne adMemberAddFails gsvAllOk gPlainRoles).1 ++
         (reconcileGroups adMemberAddFails gsvAllOk [gRecon]).1,
         (reconcileGroups adMemberAddFails gsvAllOk [gRecon]).2)) ∧
    (reconcileGroups adCreateFails gsvAllOk [gPlainRoles, gRecon]
      = ((reconcileOne adCreateFails gsvAllOk gPlainRoles).1,
         .error "create failed")) ∧
    (reconcileOne adCreateFails gsvAllOk gPlainRoles
      = ([.createOrUpdate gPlainRoles], .error "create failed")) ∧
    (reconcileOne adAllOk gsvFailSettings gPlainRoles
      = ([.createOrUpdate gPlainRoles, .updateSettings gPlainRoles],
         .error "settings failed")) ∧
    (reconcileOne adOwnerAddFails gsvAllOk gPlainRoles
      = ([.createOrUpdate gPlainRoles, .updateSettings gPlainRoles,
          .addMembers gPlainRoles ownerRole gPlainRoles.Owners],
         .error "owner add failed")) ∧
    (reconcileOne adManagerAddFails gsvAllOk gPlainRoles
      = ([.createOrUpdate gPlainRoles, .updateSettings gPlainRoles,
          .addMembers gPlainRoles ownerRole gPlainRoles.Owners,
          .addMembers gPlainRoles managerRole gPlainRoles.Managers],
         .error "manager add failed")) ∧
    (reconcileOne adRemoveFails gsvAllOk gRecon
      = ([.createOrUpdate gRecon, .updateSettings gRecon,
          .addMembers gRecon ownerRole gRecon.Owners,
          .addMembers gRecon managerRole gRecon.Managers,
          .addMembers gRecon memberRole gRecon.Members,
          .removeMembers gRecon (gRecon.Owners ++ gRecon.Managers ++ gRecon.Members)],
         .error "remove failed")) ∧
    (reconcileOne adRemoveFails gsvAllOk gPlainRoles
      = ([.createOrUpdate gPlainRoles, .updateSettings gPlainRoles,
          .addMembers gPlainRoles ownerRole gPlainRoles.Owners,
          .addMembers gPlainRoles managerRole gPlainRoles.Managers,
          .addMembers gPlainRoles memberRole gPlainRoles.Members,
          .removeOwnerOrManagers gPlainRoles
            (gPlainRoles.Owners ++ gPlainRoles.Managers)],
         .error "remove failed")) ∧
    (reconcileGroups adDeleteFails gsvAllOk []
      = ([.deleteGroups], .error "delete failed")) :=
  ⟨(C5_member_add_error_is_nonfatal.1 adMemberAddFails gsvAllOk gPlainRoles
      "member add failed" (by decide) rfl rfl rfl rfl rfl).2 (by decide) rfl,
   C5_member_add_error_is_nonfatal.2.1 adMemberAddFails gsvAllOk gPlainRoles
      [gRecon] rfl,
   C5_member_add_error_is_nonfatal.2.2.1 adCreateFails gsvAllOk gPlainRoles
      [gRecon] "create failed" rfl,
   C5_member_add_error_is_nonfatal.2.2.2.1 adCreateFails gsvAllOk gPlainRoles
      "create failed" (by decide) rfl,
   C5_member_add_error_is_nonfatal.2.2.2.2.1 adAllOk gsvFailSettings
      gPlainRoles "settings failed" (by decide) rfl rfl,
   C5_member_add_error_is_nonfatal.2.2.2.2.2.1 adOwnerAddFails gsvAllOk
      gPlainRoles "owner add failed" (by decide) rfl rfl rfl,
   C5_member_add_error_is_nonfatal.2.2.2.2.2.2.1 adManagerAddFails gsvAllOk
      gPlainRoles "manager add failed" (by decide) rfl rfl rfl rfl,
   C5_member_add_error_is_nonfatal.2.2.2.2.2.2.2.1 adRemoveFails gsvAllOk
      gRecon "remove failed" (by decide) rfl rfl rfl rfl rfl rfl,
   C5_member_add_error_is_nonfatal.2.2.2.2.2.2.2.2.1 adRemoveFails gsvAllOk
      gPlainRoles "remove failed" (by decide) rfl rfl rfl rfl (by decide) rfl,
   C5_member_add_error_is_nonfatal.2.2.2.2.2.2.2.2.2 adDeleteFails gsvAllOk
      "delete failed" rfl⟩

/-- C6: with the preceding steps successful, the group's
`ReconcileMembers` setting selects the removal call — `"true"` issues
`RemoveMembersFromGroup` with the full `owners ++ managers ++ members`
union, anything else issues `RemoveOwnerOrManagersFromGroup` with only
`owners ++ managers`; the body's calls and final result are exactly the
stated trace. -/
theorem C6_reconcile_members_selects_removal (ad : AdminService)
    (gsv : GroupService) (g : GoogleGroup)
    (h0 : g.EmailId ≠ "")
    (h1 : ad.CreateOrUpdateGroupIfNescessary g = .ok ())
    (h2 : gsv.UpdateGroupSettings g = .ok ())
    (h3 : ad.AddOrUpdateGroupMembers g ownerRole g.Owners = .ok ())
    (h4 : ad.AddOrUpdateGroupMembers g managerRole g.Managers = .ok ()) :
    (mapGet g.Settings "ReconcileMembers" = "true" →
      reconcileOne ad gsv g
        = ([.createOrUpdate g, .updateSettings g,
            .addMembers g ownerRole g.Owners,
            .addMembers g managerRole g.Managers,
            .addMembers g memberRole g.Members,
            .removeMembers g (g.Owners ++ g.Managers ++ g.Members)],
           ad.RemoveMembersFromGroup g (g.Owners ++ g.Managers ++ g.Members))) ∧
    (mapGet g.Settings "ReconcileMembers" ≠ "true" →
      reconcileOne ad gsv g
        = ([.createOrUpdate g, .updateSettings g,
            .addMembers g ownerRole g.Owners,
            .addMembers g managerRole g.Managers,
            .addMembers g memberRole g.Members,
            .removeOwnerOrManagers g (g.Owners ++ g.Managers)],
           ad.RemoveOwnerOrManagersFromGroup g (g.Owners ++ g.Managers))) := by
  constructor
  · intro hs
    simp [reconcileOne, andThen, callA, callLogged, h0, h1, h2, h3, h4, hs]
  · intro hs
    simp [reconcileOne, andThen, callA, callLogged, h0, h1, h2, h3, h4, hs]

/-- C6 witness: the two branches evaluated on a concrete group with and
without `ReconcileMembers: "true"` — the wide removal receives the full
union, the narrow one only owners and managers. -/
theorem C6_reconcile_members_selects_removal_witness :
    reconcileOne adAllOk gsvAllOk gRecon
      = ([.createOrUpdate gRecon, .updateSettings gRecon,
          .addMembers gRecon ownerRole gRecon.Owners,
          .addMembers gRecon managerRole gRecon.Managers,
          .addMembers gRecon memberRole gRecon.Members,
          .removeMembers gRecon (gRecon.Owners ++ gRecon.Managers ++ gRecon.Members)],
         adAllOk.RemoveMembersFromGroup gRecon
           (gRecon.Owners ++ gRecon.Managers ++ gRecon.Members)) ∧
    reconcileOne adAllOk gsvAllOk gPlainRoles
      = ([.createOrUpdate gPlainRoles, .updateSettings gPlainRoles,
          .addMembers gPlainRoles ownerRole gPlainRoles.Owners,
          .addMembers gPlainRoles managerRole gPlainRoles.Managers,
          .addMembers gPlainRoles memberRole gPlainRoles.Members,
          .removeOwnerOrManagers gPlainRoles
            (gPlainRoles.Owners ++ gPlainRoles.Managers)],
         adAllOk.RemoveOwnerOrManagersFromGroup gPlainRoles
           (gPlainRoles.Owners ++ gPlainRoles.Managers)) :=
  ⟨(C6_reconcile_members_selects_removal adAllOk gsvAllOk gRecon
      (by decide) rfl rfl rfl rfl).1 (by decide),
   (C6_reconcile_members_selects_removal adAllOk gsvAllOk gPlainRoles
      (by decide) rfl rfl rfl rfl).2 (by decide)⟩

end Reconcile
